import Mathlib

/-!
A shallow embedding of the commit/upload pipeline of the `huggingface_hub`
client (files `async_hf_api.py`, `hf_api.py`, `hf_api_utils.py`).

Network I/O is made explicit: every function that talks to the Hub takes a
`Server` value describing the behaviour of the remote side and returns, next to its
result, the list of network calls it performed, in order.  Python exceptions
become `Except HfError`.

Definitions whose Python source is not part of the provided sources
(`_commit_api.py`, `constants.py`, `utils/_errors.py`, `utils/_paths.py`) are
modelled from the specification and say so in their doc comment.
-/

set_option autoImplicit false

namespace HuggingfaceHub

/-! ### Constants (`constants.py`)

`constants.py` is not among the provided sources; the values below are
modelled from the spec and from the docstrings in `async_hf_api.py`
(`create_commit` documents that a `ValueError` is raised "If `create_pr` is
`True` and revision is neither `None` nor `\"main\"`", and the `upload_file`
docstring shows dataset URLs of the form `.../datasets/username/my-dataset/...`). -/

/-- Modelled from the spec: the default endpoint of the Hub. -/
def ENDPOINT : String := "https://huggingface.co"

/-- Modelled from the spec: the default branch, documented as `"main"` in the
`create_commit` docstring. -/
def DEFAULT_REVISION : String := "main"

/-- Modelled from the spec: the repo type used when none is given. -/
def REPO_TYPE_MODEL : String := "model"

/-- Modelled from the spec: valid repository types (models, datasets and
spaces); `none` is a member because callers may leave the type unset. -/
def REPO_TYPES : List (Option String) :=
  [none, some "model", some "dataset", some "space"]

/-- Modelled from the spec: URL prefixes for non-model repo types, as shown in
the `upload_file` docstring examples. -/
def REPO_TYPES_URL_PREFIXES : List (String × String) :=
  [("dataset", "datasets/"), ("space", "spaces/")]

/-- Look up the URL prefix of a repo type (`None` when the type has none). -/
def urlPrefixFor (repo_type : Option String) : Option String :=
  match repo_type with
  | none => none
  | some t => (REPO_TYPES_URL_PREFIXES.lookup t)

/-- The method `str.startswith` of Python strings, over character lists. -/
def strStartsWith (s pre : String) : Bool :=
  pre.data.isPrefixOf s.data

/-- The method `str.endswith` of Python strings, over character lists. -/
def strEndsWith (s post : String) : Bool :=
  post.data.isSuffixOf s.data

/-- A hexadecimal digit, as accepted in a commit OID. -/
def isHexChar (c : Char) : Bool :=
  c.isDigit || (Char.ofNat 97 ≤ c && c ≤ Char.ofNat 102) ||
    (Char.ofNat 65 ≤ c && c ≤ Char.ofNat 70)

/-- Modelled from the spec: `REGEX_COMMIT_OID.fullmatch`.  `constants.py` is
not in the provided sources; the spec fixes the accepted parent-commit shape
as "a fixed hex-OID shape (full or 7-character abbreviated SHA)", so the
fullmatch succeeds exactly on 7- or 40-character hexadecimal strings. -/
def regexCommitOidFullmatch (s : String) : Bool :=
  (s.length == 7 || s.length == 40) && s.data.all isHexChar

/-! ### `urllib.parse.quote` with `safe=""`

Percent-encoding as performed by `quote(revision, safe="")` in
`create_commit` and by `quote(_parse_revision_from_pr_url(pr_url), safe="")`
in `upload_file` / `upload_folder`.  Characters are assumed to be ASCII
(multi-byte UTF-8 encoding of non-ASCII characters is outside the scope of
this embedding). -/

/-- The characters `quote` never encodes: letters, digits and `_.-~`. -/
def quoteSafeChar (c : Char) : Bool :=
  c.isAlphanum || c = Char.ofNat 95 || c = Char.ofNat 46 ||
    c = Char.ofNat 45 || c = Char.ofNat 126

/-- Upper-case hexadecimal digit of a value below 16. -/
def hexUpperDigit (n : Nat) : Char :=
  "0123456789ABCDEF".data.getD n (Char.ofNat 48)

/-- Percent-encode one (ASCII) character. -/
def percentEncodeChar (c : Char) : String :=
  String.mk [Char.ofNat 37, hexUpperDigit (c.toNat / 16), hexUpperDigit (c.toNat % 16)]

/-- The function `urllib.parse.quote(s, safe="")`, restricted to ASCII input. -/
def urlQuote (s : String) : String :=
  s.data.foldl
    (fun acc c => acc ++ (if quoteSafeChar c then String.mk [c] else percentEncodeChar c)) ""

/-! ### Operation model (`_commit_api.py`, modelled from the spec)

`_commit_api.py` is not among the provided sources.  The spec describes the
operation model: an `Add` carries `path_in_repo` plus a content source (local
file path, in-memory byte buffer or open binary stream) and a lazily computed,
cached content hash (the `oid`); a `Delete` carries `path_in_repo` only. -/

/-- Content source of an `Add`: a local file path (together with the bytes the
file holds, so that the embedding stays a pure function) or an in-memory byte
buffer / binary stream. -/
inductive PathOrFileobj where
  | filePath (p : String) (content : List Nat)
  | buffer (content : List Nat)
deriving DecidableEq, Repr

/-- The bytes a content source resolves to. -/
def PathOrFileobj.contentBytes : PathOrFileobj → List Nat
  | .filePath _ content => content
  | .buffer content => content

/-- Modelled from the spec: `CommitOperationAdd`.  `sha` stands for the cached
SHA-256 content hash (the hash function itself is not modelled; the pipeline
only ever copies the cached value into LFS pointer records). -/
structure CommitOperationAdd where
  path_or_fileobj : PathOrFileobj
  path_in_repo : String
  sha : String := ""
deriving DecidableEq, Repr

/-- Modelled from the spec: `CommitOperationDelete`. -/
structure CommitOperationDelete where
  path_in_repo : String
deriving DecidableEq, Repr

/-- An element of the `operations` iterable passed to `create_commit`.  In
Python the iterable is dynamically typed, so next to the two documented
variants a foreign object of any other type may appear; `unknown` models such
an element. -/
inductive CommitOp where
  | add (op : CommitOperationAdd)
  | del (op : CommitOperationDelete)
  | unknown (tag : Nat)
deriving DecidableEq, Repr

/-- The check `isinstance(op, CommitOperationAdd)` as a projection. -/
def CommitOp.getAdd : CommitOp → Option CommitOperationAdd
  | .add a => some a
  | _ => none

/-- The check `isinstance(op, CommitOperationDelete)` as a projection. -/
def CommitOp.getDel : CommitOp → Option CommitOperationDelete
  | .del d => some d
  | _ => none

/-- Whether the element is neither an `Add` nor a `Delete`. -/
def CommitOp.isUnknown : CommitOp → Bool
  | .unknown _ => true
  | _ => false

/-- Splitting a character list at `/` separators (the semantics of the Python
call `"...".split("/")`). -/
def splitOnSlash : List Char → List (List Char)
  | [] => [[]]
  | x :: xs =>
      match splitOnSlash xs with
      | [] => [[]]
      | g :: gs => if x = Char.ofNat 47 then [] :: g :: gs else (x :: g) :: gs

/-- Modelled from the spec: `CommitOperationAdd.validate`.  The spec requires
`path_in_repo` to be a normalized POSIX-style relative path: non-empty, no
leading `/`, no `..` segments. -/
def additionValid (a : CommitOperationAdd) : Bool :=
  a.path_in_repo != "" && !(strStartsWith a.path_in_repo "/") &&
    !((splitOnSlash a.path_in_repo.data).contains "..".data)

/-! ### Errors

Python exception classes raised by the pipeline, as a sum type. -/

inductive HfError where
  | valueError (msg : String)
  | environmentError (msg : String)
  | repositoryNotFound (msg : String)
  | httpError (status : Nat) (msg : String)
  | uploadFailed (path : String)
  | runtimeError (msg : String)
deriving DecidableEq, Repr

/-! ### Network calls and the server oracle -/

/-- One network request, as recorded in a call trace.  `whoami` is the token
validation request; `preupload` is the upload-mode classifier RPC; `lfsUpload`
is an LFS blob transfer; `commitPost` is the POST to the commit endpoint
(carrying the serialized request body and whether `create_pr=1` was set). -/
inductive NetCall where
  | whoami (token : String)
  | preupload (repo_type : String) (repo_id : String) (revision : String)
      (create_pr : Bool) (paths : List String)
  | lfsUpload (path : String)
  | commitPost (url : String) (body : String) (create_pr : Bool)
deriving DecidableEq, Repr

/-- Whether a call is the token-validation request. -/
def NetCall.isWhoami : NetCall → Bool
  | .whoami _ => true
  | _ => false

/-- Whether a call is an LFS blob transfer. -/
def NetCall.isLfsUpload : NetCall → Bool
  | .lfsUpload _ => true
  | _ => false

/-- Whether a call is a POST to the commit endpoint. -/
def NetCall.isCommitPost : NetCall → Bool
  | .commitPost _ _ _ => true
  | _ => false

/-- The bodies POSTed to the commit endpoint during a trace. -/
def postedBodies (calls : List NetCall) : List String :=
  calls.filterMap fun c =>
    match c with
    | .commitPost _ body _ => some body
    | _ => none

/-- Upload mode assigned to an addition by the classifier. -/
inductive UploadMode where
  | regular
  | lfs
deriving DecidableEq, Repr

/-- Outcome of the upload-mode classifier RPC (spec §4.1): the repo may not
exist (HTTP 404), another transport failure may occur, or one mode per
addition is returned, preserving input order. -/
inductive ClassifierResult where
  | repoNotFound (serverMessage : String)
  | httpError (status : Nat) (message : String)
  | ok (modes : List UploadMode)
deriving DecidableEq, Repr

/-- The behaviour of the remote side for one `create_commit` attempt, together with
the local token store (`HfFolder`). -/
structure Server where
  storedToken : Option String
  tokenValid : String → Bool
  classify : List String → ClassifierResult
  lfsFail : String → Bool
  commitStatus : Nat
  commitPullRequestUrl : Option String

/-! ### Base64 (used for inline file content in commit payload records) -/

/-- The base64 alphabet. -/
def base64Chars : List Char :=
  "ABCDEFGHIJKLMNOPQRSTUVWXYZabcdefghijklmnopqrstuvwxyz0123456789+/".data

/-- The base64 digit of a value below 64. -/
def b64Char (n : Nat) : Char := base64Chars.getD n (Char.ofNat 65)

/-- Standard base64 encoding of a byte list (bytes are `Nat`s below 256). -/
def base64Encode : List Nat → List Char
  | [] => []
  | [b1] =>
      [b64Char (b1 / 4), b64Char (b1 % 4 * 16), Char.ofNat 61, Char.ofNat 61]
  | [b1, b2] =>
      [b64Char (b1 / 4), b64Char (b1 % 4 * 16 + b2 / 16), b64Char (b2 % 16 * 4),
        Char.ofNat 61]
  | b1 :: b2 :: b3 :: rest =>
      b64Char (b1 / 4) :: b64Char (b1 % 4 * 16 + b2 / 16) ::
        b64Char (b2 % 16 * 4 + b3 / 64) :: b64Char (b3 % 64) :: base64Encode rest

/-! ### Commit payload records and their JSON serialization

Modelled from the spec (§4.3, §6): the payload is an ordered sequence of
records, a header record first, then one record per operation.  Each record is
a JSON object `\x7b"key": ..., "value": ...\x7d` whose value object holds only
scalar fields, so a two-level encoder suffices. -/

/-- A scalar JSON value inside a commit record. -/
inductive JVal where
  | str (s : String)
  | num (n : Nat)
deriving DecidableEq, Repr

/-- One record of the commit payload: a key (`header`, `file`, `lfsFile` or
`deletedFile`) and a value object given as ordered fields. -/
structure CommitRecord where
  key : String
  value : List (String × JVal)
deriving DecidableEq, Repr

/-- JSON string escaping (Python `json.dumps` with ASCII content). -/
def jsonEscapeChar (c : Char) : String :=
  if c = Char.ofNat 34 then "\\\""
  else if c = Char.ofNat 92 then "\\\\"
  else if c = Char.ofNat 10 then "\\n"
  else if c = Char.ofNat 13 then "\\r"
  else if c = Char.ofNat 9 then "\\t"
  else String.mk [c]

/-- A JSON string literal. -/
def jsonStr (s : String) : String :=
  "\"" ++ s.data.foldl (fun acc c => acc ++ jsonEscapeChar c) "" ++ "\""

/-- Serialize a scalar value. -/
def JVal.encode : JVal → String
  | .str s => jsonStr s
  | .num n => toString n

/-- Serialize the fields of a value object.  Separators are the defaults of
the Python `json.dumps` function (`", "` and `": "`), which is what the `json=`
keyword of the HTTP client uses. -/
def encodeFields (fields : List (String × JVal)) : String :=
  "\x7b" ++
    String.intercalate ", " (fields.map fun kv => jsonStr kv.1 ++ ": " ++ kv.2.encode) ++
    "\x7d"

/-- Serialize one commit record as a JSON object. -/
def CommitRecord.encode (r : CommitRecord) : String :=
  "\x7b\"key\": " ++ jsonStr r.key ++ ", \"value\": " ++ encodeFields r.value ++ "\x7d"

/-- The request body produced by posting the record list through the HTTP
client `json=` keyword: the standard JSON serialization of the list, i.e.
one JSON array. -/
def encodeBodyJsonArray (records : List CommitRecord) : String :=
  "[" ++ String.intercalate ", " (records.map CommitRecord.encode) ++ "]"

/-- The newline-delimited serialization of the record list (the shape the spec
asserts for the wire protocol): one JSON record per line. -/
def encodeBodyNdjson (records : List CommitRecord) : String :=
  String.intercalate "\n" (records.map CommitRecord.encode)

/-- Modelled from the spec: the header record
`{"key": "header", "value": {"summary", "description", "parentCommit"?}}`. -/
def headerRecord (commit_message commit_description : String)
    (parent_commit : Option String) : CommitRecord :=
  ⟨"header",
    [("summary", .str commit_message), ("description", .str commit_description)] ++
      (match parent_commit with
       | some p => [("parentCommit", JVal.str p)]
       | none => [])⟩

/-- Modelled from the spec: the record of one classified addition.  An inline
(`regular`) addition embeds its base64-encoded content; an `lfs` addition
embeds only the pointer record (hash + size). -/
def additionRecord : CommitOperationAdd × UploadMode → CommitRecord
  | (a, .regular) =>
      ⟨"file",
        [("path", .str a.path_in_repo), ("encoding", .str "base64"),
          ("content", .str (String.mk (base64Encode a.path_or_fileobj.contentBytes)))]⟩
  | (a, .lfs) =>
      ⟨"lfsFile",
        [("path", .str a.path_in_repo), ("algo", .str "sha256"),
          ("oid", .str a.sha), ("size", .num a.path_or_fileobj.contentBytes.length)]⟩

/-- Modelled from the spec: the record of one deletion. -/
def deletionRecord (d : CommitOperationDelete) : CommitRecord :=
  ⟨"deletedFile", [("path", JVal.str d.path_in_repo)]⟩

/-- Modelled from the spec: `prepare_commit_payload` from `_commit_api.py`
(not among the provided sources).  Builds the ordered record sequence: header
first, then one record per addition (in classifier output order) and one per
deletion. -/
def prepare_commit_payload (additions : List (CommitOperationAdd × UploadMode))
    (deletions : List CommitOperationDelete) (commit_message : String)
    (commit_description : String) (parent_commit : Option String) :
    List CommitRecord :=
  headerRecord commit_message commit_description parent_commit ::
    (additions.map additionRecord ++ deletions.map deletionRecord)

/-! ### `_parse_revision_from_pr_url` (`hf_api_utils.py`, lines 13 and 179-194)

`_REGEX_DISCUSSION_URL = re.compile(r".*/discussions/(\d+)$")`, applied with
`re.match`, i.e. anchored at the start of the string.  Python semantics that
matter here: `.` does not match a newline (no `re.DOTALL`), `.*` is greedy,
`\d+` is greedy, and `$` matches at the end of the string or just before a
newline that is the last character.  `\d` is modelled as an ASCII digit. -/

/-- The literal middle part of the pattern. -/
def discussionsLit : List Char := "/discussions/".data

/-- Matching the pattern tail `/discussions/(\d+)$` at the current position:
the literal, then the longest run of digits, then `$` (end of input, or a
final newline).  Returns the captured digit group. -/
def discussionsSuffixCapture (t : List Char) : Option (List Char) :=
  if discussionsLit.isPrefixOf t then
    let rest := t.drop discussionsLit.length
    let d := rest.takeWhile Char.isDigit
    let tail := rest.dropWhile Char.isDigit
    if d ≠ [] ∧ (tail = [] ∨ tail = [Char.ofNat 10]) then some d else none
  else none

/-- Matching `_REGEX_DISCUSSION_URL` with `re.match`: the leading `.*` is greedy and never
matches a newline, so the split with the longest newline-free prefix whose
remainder matches the pattern tail wins.  Returns the captured digit group. -/
def regexDiscussionMatch : List Char → Option (List Char)
  | [] => discussionsSuffixCapture []
  | c :: rest =>
      if c = Char.ofNat 10 then
        discussionsSuffixCapture (c :: rest)
      else
        match regexDiscussionMatch rest with
        | some d => some d
        | none => discussionsSuffixCapture (c :: rest)

/-- The function `_parse_revision_from_pr_url` (`hf_api_utils.py`, lines 179-194): returns
`refs/pr/<captured digits>` on a match and raises a `RuntimeError` otherwise
(quote marks around the URL elided from the message). -/
def _parse_revision_from_pr_url (pr_url : String) : Except HfError String :=
  match regexDiscussionMatch pr_url.data with
  | none =>
      .error (.runtimeError
        ("Unexpected response from the hub, expected a Pull Request URL but got: " ++ pr_url))
  | some d => .ok ("refs/pr/" ++ String.mk d)

/-! ### POSIX path helpers (`os.path` on a POSIX system) -/

/-- The function `os.path.join(a, b)` for POSIX separators. -/
def posixJoin (a b : String) : String :=
  if strStartsWith b "/" then b
  else if a = "" then b
  else if strEndsWith a "/" then a ++ b
  else a ++ "/" ++ b

/-- The function `os.path.normpath` for POSIX paths (the POSIX double-slash special case is
not modelled). -/
def posixNormpath (p : String) : String :=
  let isAbs := strStartsWith p "/"
  let comps := ((splitOnSlash p.data).map String.mk).filter (fun c => c ≠ "" ∧ c ≠ ".")
  let norm := comps.foldl
    (fun acc c =>
      if c = ".." then
        if isAbs then (if acc = [] then acc else acc.dropLast)
        else if acc ≠ [] ∧ acc.getLast? ≠ some ".." then acc.dropLast
        else acc ++ [c]
      else acc ++ [c]) ([] : List String)
  let body := String.intercalate "/" norm
  if isAbs then "/" ++ body
  else if body = "" then "." else body

/-! ### Glob filtering (`filter_repo_objects`, modelled from the spec) -/

/-- The `*` wildcard of a glob pattern: the rest of the pattern may match at
the current position or after skipping any number of characters. -/
def globStar (matchRest : List Char → Bool) : List Char → Bool
  | [] => matchRest []
  | c :: t => matchRest (c :: t) || globStar matchRest t

/-- Glob matching in the style of `fnmatch`, as used for `allow_patterns` and
`ignore_patterns`: `*` matches any character sequence (including `/`), `?`
any single character, every other character itself.  Character classes
(`[...]`) are not modelled. -/
def globMatch : List Char → List Char → Bool
  | [], s => s.isEmpty
  | p :: ps, s =>
      if p = Char.ofNat 42 then
        globStar (globMatch ps) s
      else
        match s with
        | [] => false
        | c :: t => (p = Char.ofNat 63 || p = c) && globMatch ps t

/-- Modelled from the spec: `filter_repo_objects` from `utils/_paths.py` (not
among the provided sources), for list-valued pattern arguments (a single
string pattern in Python is the one-element list here).  An item is dropped
when `allow_patterns` is set and no allow pattern matches its key, or when
`ignore_patterns` is set and some ignore pattern matches its key (spec §4.5:
allow first, ignore applied after). -/
def filter_repo_objects (items : List CommitOperationAdd)
    (allow_patterns ignore_patterns : Option (List String))
    (key : CommitOperationAdd → String) : List CommitOperationAdd :=
  items.filter fun item =>
    !(allow_patterns.any fun pats => !(pats.any fun r => globMatch r.data (key item).data)) &&
      !(ignore_patterns.any fun pats => pats.any fun r => globMatch r.data (key item).data)

/-- The filtering predicate as the claim states it: both filters look only at
the final `path_in_repo` string. -/
def keepByPatterns (allow_patterns ignore_patterns : Option (List String))
    (path : String) : Bool :=
  (match allow_patterns with
   | none => true
   | some pats => pats.any fun r => globMatch r.data path.data) &&
    (match ignore_patterns with
     | none => true
     | some pats => !(pats.any fun r => globMatch r.data path.data))

/-! ### The folder walker (`_prepare_upload_folder_commit`) -/

/-- One regular file found under the folder root: its path relative to the
root (forward slashes, as produced by `os.walk` + `os.path.relpath`) and its
content bytes. -/
structure FileEntry where
  relPath : String
  content : List Nat
deriving DecidableEq, Repr

/-- The folder walker `_prepare_upload_folder_commit` (`hf_api_utils.py`, lines 197-233).  The
local directory is passed as `folder : Option (List FileEntry)`, standing for
the outcome of `os.path.isdir` and `os.walk` on `folder_path` (`none` when
the path is not a directory).  `os.path.expanduser` is the identity for the
paths considered here, and `.replace(os.sep, "/")` is the identity on POSIX.
Each file maps to an `Add` whose `path_in_repo` is
`normpath(join(path_in_repo, rel_path))`; the list is then filtered by
`filter_repo_objects` keyed on `path_in_repo` (quote marks elided from the
error message). -/
def _prepare_upload_folder_commit (folder_path : String)
    (folder : Option (List FileEntry)) (path_in_repo : String)
    (allow_patterns ignore_patterns : Option (List String)) :
    Except HfError (List CommitOperationAdd) :=
  let folder_path := posixNormpath folder_path
  match folder with
  | none =>
      .error (.valueError ("Provided path: " ++ folder_path ++ " is not a directory"))
  | some entries =>
      let files_to_add := entries.map fun e =>
        { path_or_fileobj := PathOrFileobj.filePath (posixJoin folder_path e.relPath) e.content,
          path_in_repo := posixNormpath (posixJoin path_in_repo e.relPath) :
          CommitOperationAdd }
      .ok (filter_repo_objects files_to_add allow_patterns ignore_patterns (·.path_in_repo))

/-! ### `AsyncHfApi` (`async_hf_api.py`) -/

/-- The API client: only the endpoint is state (`AsyncHfApi.__init__`). -/
structure AsyncHfApi where
  endpoint : String := ENDPOINT
deriving DecidableEq, Repr

/-- The method `AsyncHfApi._validate_or_retrieve_token` (`async_hf_api.py`, lines
114-159), for the `name=None` call sites used by the commit pipeline.  A
missing token is looked up in the local store; a string token is rejected if
it is an organization token and otherwise validated against the server with a
`whoami` request (`_is_valid_token`), which is a network call whether or not
the token turns out to be valid. -/
def AsyncHfApi.validate_or_retrieve_token (srv : Server) (token : Option String) :
    Except HfError String × List NetCall :=
  match token.orElse (fun _ => srv.storedToken) with
  | none =>
      (.error (.environmentError
        "You need to provide a `token` or be logged in to Hugging Face with `huggingface-cli login`."),
        [])
  | some t =>
      if strStartsWith t "api_org" then
        (.error (.valueError "You must use your personal account token."), [])
      else if srv.tokenValid t then
        (.ok t, [.whoami t])
      else
        (.error (.valueError "Invalid token passed!"), [.whoami t])

/-- Modelled from the spec: `fetch_upload_modes` from `_commit_api.py` (not
among the provided sources).  A single classifier RPC for the whole batch
(spec §4.1): on HTTP 404 a `RepositoryNotFoundError` is raised, on any other
non-2xx a transport failure, otherwise one upload mode per addition is
returned, preserving input order. -/
def fetch_upload_modes (srv : Server) (additions : List CommitOperationAdd)
    (repo_type repo_id revision : String) (create_pr : Bool) :
    Except HfError (List (CommitOperationAdd × UploadMode)) × List NetCall :=
  let call := NetCall.preupload repo_type repo_id revision create_pr
    (additions.map (·.path_in_repo))
  match srv.classify (additions.map (·.path_in_repo)) with
  | .repoNotFound msg => (.error (.repositoryNotFound msg), [call])
  | .httpError status msg => (.error (.httpError status msg), [call])
  | .ok modes => (.ok (additions.zip modes), [call])

/-- Modelled from the spec: `upload_lfs_files` from `_commit_api.py` (not
among the provided sources).  Transfers each `lfs`-classified addition to blob
storage; a transfer failure is surfaced as a distinct upload failure naming
the offending path (spec §4.2).  The bounded-concurrency worker pool is
modelled sequentially; `num_threads` does not change which transfers happen. -/
def upload_lfs_files (srv : Server) : List CommitOperationAdd →
    Except HfError Unit × List NetCall
  | [] => (.ok (), [])
  | a :: rest =>
      if srv.lfsFail a.path_in_repo then
        (.error (.uploadFailed a.path_in_repo), [.lfsUpload a.path_in_repo])
      else
        let r := upload_lfs_files srv rest
        (r.1, .lfsUpload a.path_in_repo :: r.2)

/-- The guidance appended to a classifier 404 in `create_commit`
(`async_hf_api.py`, lines 1568-1573; apostrophes elided from the message). -/
def createRepoNote : String :=
  "\nNote: Creating a commit assumes that the repo already exists on the Huggingface Hub. Please use `create_repo` if it is not the case."

/-- The arguments of `AsyncHfApi.create_commit`, bundled. -/
structure CommitArgs where
  repo_id : String
  operations : List CommitOp
  commit_message : String
  commit_description : Option String := none
  token : Option String := none
  repo_type : Option String := none
  revision : Option String := none
  create_pr : Option Bool := none
  num_threads : Nat := 5
  parent_commit : Option String := none
deriving Repr

/-- The method `AsyncHfApi.create_commit` (`async_hf_api.py`, lines 1424-1604).  Mirrors
the source statement by statement: parent-commit OID check, commit-message
check, defaulting of description/repo type, repo-type check, token
validation, revision quoting and defaulting, PR-against-default-branch check,
splitting of the operations into additions and deletions, unknown-operation
check, per-addition validation, classifier RPC (with the create-repo note
appended to a 404), LFS upload of the `lfs`-classified additions, payload
construction, and the POST to the commit endpoint; the `pullRequestUrl` field
of the JSON response is returned.  `hf_raise_for_status` is modelled from
the spec (§4.4): 404 surfaces as repository-not-found, any other non-2xx as a
transport failure. -/
def AsyncHfApi.create_commit (api : AsyncHfApi) (srv : Server) (a : CommitArgs) :
    Except HfError (Option String) × List NetCall :=
  if a.parent_commit.any (fun p => !regexCommitOidFullmatch p) then
    (.error (.valueError
      "`parent_commit` is not a valid commit OID. It must match the following regex: {REGEX_COMMIT_OID}"),
      [])
  else if a.commit_message = "" then
    (.error (.valueError "`commit_message` cannot be empty, please pass a value."), [])
  else
    let commit_description := a.commit_description.getD ""
    let repo_type := a.repo_type.getD REPO_TYPE_MODEL
    if ¬ REPO_TYPES.contains (some repo_type) then
      (.error (.valueError "Invalid repo type, must be one of {REPO_TYPES}"), [])
    else
      match AsyncHfApi.validate_or_retrieve_token srv a.token with
      | (.error e, calls) => (.error e, calls)
      | (.ok _token, calls) =>
        let revision := (a.revision.map urlQuote).getD DEFAULT_REVISION
        let create_pr := a.create_pr.getD false
        if create_pr ∧ revision ≠ DEFAULT_REVISION then
          (.error (.valueError "Can only create pull requests against {DEFAULT_REVISION}"),
            calls)
        else
          let additions := a.operations.filterMap CommitOp.getAdd
          let deletions := a.operations.filterMap CommitOp.getDel
          if additions.length + deletions.length ≠ a.operations.length then
            (.error (.valueError
              "Unknown operation, must be one of `CommitOperationAdd` or `CommitOperationDelete`"),
              calls)
          else if ¬ additions.all additionValid then
            (.error (.valueError "Invalid `path_in_repo` in a commit operation"), calls)
          else
            match fetch_upload_modes srv additions repo_type a.repo_id revision create_pr with
            | (.error (.repositoryNotFound msg), fCalls) =>
                (.error (.repositoryNotFound (msg ++ createRepoNote)), calls ++ fCalls)
            | (.error e, fCalls) => (.error e, calls ++ fCalls)
            | (.ok additions_with_upload_mode, fCalls) =>
                let lfsAdditions := (additions_with_upload_mode.filter
                  (fun p => p.2 = UploadMode.lfs)).map (·.1)
                match upload_lfs_files srv lfsAdditions with
                | (.error e, uCalls) => (.error e, calls ++ fCalls ++ uCalls)
                | (.ok _, uCalls) =>
                  let commit_payload := prepare_commit_payload additions_with_upload_mode
                    deletions a.commit_message commit_description a.parent_commit
                  let commit_url :=
                    api.endpoint ++ "/api/" ++ repo_type ++ "s/" ++ a.repo_id ++
                      "/commit/" ++ revision
                  let body := encodeBodyJsonArray commit_payload
                  let post := NetCall.commitPost commit_url body create_pr
                  let trace := calls ++ fCalls ++ uCalls ++ [post]
                  if 200 ≤ srv.commitStatus ∧ srv.commitStatus < 300 then
                    (.ok srv.commitPullRequestUrl, trace)
                  else if srv.commitStatus = 404 then
                    (.error (.repositoryNotFound "Repository Not Found"), trace)
                  else
                    (.error (.httpError srv.commitStatus "commit endpoint error"), trace)

/-- The arguments of `AsyncHfApi.upload_file` (the deprecated no-op
`identical_ok` flag is omitted). -/
structure UploadFileArgs where
  path_or_fileobj : PathOrFileobj
  path_in_repo : String
  repo_id : String
  token : Option String := none
  repo_type : Option String := none
  revision : Option String := none
  commit_message : Option String := none
  commit_description : Option String := none
  create_pr : Option Bool := none
  parent_commit : Option String := none
deriving Repr

/-- The method `AsyncHfApi.upload_file` (`async_hf_api.py`, lines 1606-1764): repo-type
check, default commit message, a single `Add` operation handed to
`create_commit`; when a pull request was created the display revision is the
percent-encoded revision parsed from the PR URL, otherwise the revision of
the caller (defaulted to the default branch); dataset/space repo ids get their
URL prefix; returns `{endpoint}/{repo_id}/blob/{revision}/{path_in_repo}`. -/
def AsyncHfApi.upload_file (api : AsyncHfApi) (srv : Server) (a : UploadFileArgs) :
    Except HfError String × List NetCall :=
  if ¬ REPO_TYPES.contains a.repo_type then
    (.error (.valueError "Invalid repo type, must be one of {REPO_TYPES}"), [])
  else
    let commit_message :=
      a.commit_message.getD ("Upload " ++ a.path_in_repo ++ " with huggingface_hub")
    let operation : CommitOp :=
      .add { path_or_fileobj := a.path_or_fileobj, path_in_repo := a.path_in_repo }
    match api.create_commit srv
        { repo_id := a.repo_id, operations := [operation],
          commit_message := commit_message,
          commit_description := a.commit_description, token := a.token,
          repo_type := a.repo_type, revision := a.revision,
          create_pr := a.create_pr, parent_commit := a.parent_commit } with
    | (.error e, calls) => (.error e, calls)
    | (.ok pr_url, calls) =>
        match pr_url with
        | some u =>
            match _parse_revision_from_pr_url u with
            | .error e => (.error e, calls)
            | .ok rev =>
                let revision := urlQuote rev
                let repo_id := match urlPrefixFor a.repo_type with
                  | some pre => pre ++ a.repo_id
                  | none => a.repo_id
                (.ok (api.endpoint ++ "/" ++ repo_id ++ "/blob/" ++ revision ++ "/" ++
                  a.path_in_repo), calls)
        | none =>
            let repo_id := match urlPrefixFor a.repo_type with
              | some pre => pre ++ a.repo_id
              | none => a.repo_id
            let revision := a.revision.getD DEFAULT_REVISION
            (.ok (api.endpoint ++ "/" ++ repo_id ++ "/blob/" ++ revision ++ "/" ++
              a.path_in_repo), calls)

/-- The arguments of `AsyncHfApi.upload_folder`.  `folder` stands for the
filesystem contents of `folder_path` (see `_prepare_upload_folder_commit`). -/
structure UploadFolderArgs where
  repo_id : String
  folder_path : String
  folder : Option (List FileEntry)
  path_in_repo : Option String := none
  commit_message : Option String := none
  commit_description : Option String := none
  token : Option String := none
  repo_type : Option String := none
  revision : Option String := none
  create_pr : Option Bool := none
  parent_commit : Option String := none
  allow_patterns : Option (List String) := none
  ignore_patterns : Option (List String) := none
deriving Repr

/-- The method `AsyncHfApi.upload_folder` (`async_hf_api.py`, lines 1766-1924): repo-type
check, `path_in_repo` defaulted to the repo root, default commit message,
folder expansion and glob filtering via `_prepare_upload_folder_commit`, then
`create_commit`; the returned display URL is
`{endpoint}/{repo_id}/tree/{revision}/{path_in_repo}` with the same revision
and repo-id handling as `upload_file`. -/
def AsyncHfApi.upload_folder (api : AsyncHfApi) (srv : Server) (a : UploadFolderArgs) :
    Except HfError String × List NetCall :=
  if ¬ REPO_TYPES.contains a.repo_type then
    (.error (.valueError "Invalid repo type, must be one of {REPO_TYPES}"), [])
  else
    let path_in_repo := a.path_in_repo.getD ""
    let commit_message :=
      a.commit_message.getD ("Upload " ++ path_in_repo ++ " with huggingface_hub")
    match _prepare_upload_folder_commit a.folder_path a.folder path_in_repo
        a.allow_patterns a.ignore_patterns with
    | .error e => (.error e, [])
    | .ok files_to_add =>
        match api.create_commit srv
            { repo_id := a.repo_id, operations := files_to_add.map CommitOp.add,
              commit_message := commit_message,
              commit_description := a.commit_description, token := a.token,
              repo_type := a.repo_type, revision := a.revision,
              create_pr := a.create_pr, parent_commit := a.parent_commit } with
        | (.error e, calls) => (.error e, calls)
        | (.ok pr_url, calls) =>
            match pr_url with
            | some u =>
                match _parse_revision_from_pr_url u with
                | .error e => (.error e, calls)
                | .ok rev =>
                    let revision := urlQuote rev
                    let repo_id := match urlPrefixFor a.repo_type with
                      | some pre => pre ++ a.repo_id
                      | none => a.repo_id
                    (.ok (api.endpoint ++ "/" ++ repo_id ++ "/tree/" ++ revision ++ "/" ++
                      path_in_repo), calls)
            | none =>
                let repo_id := match urlPrefixFor a.repo_type with
                  | some pre => pre ++ a.repo_id
                  | none => a.repo_id
                let revision := a.revision.getD DEFAULT_REVISION
                (.ok (api.endpoint ++ "/" ++ repo_id ++ "/tree/" ++ revision ++ "/" ++
                  path_in_repo), calls)

/-- The arguments of `AsyncHfApi.delete_file`. -/
structure DeleteFileArgs where
  path_in_repo : String
  repo_id : String
  token : Option String := none
  repo_type : Option String := none
  revision : Option String := none
  commit_message : Option String := none
  commit_description : Option String := none
  create_pr : Option Bool := none
  parent_commit : Option String := none
deriving Repr

/-- The method `AsyncHfApi.delete_file` (`async_hf_api.py`, lines 1926-2012): builds a
single `Delete` operation with a default commit message and returns the
result of `create_commit` (the pull-request URL or `None`); it does not build
a display URL. -/
def AsyncHfApi.delete_file (api : AsyncHfApi) (srv : Server) (a : DeleteFileArgs) :
    Except HfError (Option String) × List NetCall :=
  let commit_message :=
    a.commit_message.getD ("Delete " ++ a.path_in_repo ++ " with huggingface_hub")
  api.create_commit srv
    { repo_id := a.repo_id, operations := [.del ⟨a.path_in_repo⟩],
      commit_message := commit_message,
      commit_description := a.commit_description, token := a.token,
      repo_type := a.repo_type, revision := a.revision,
      create_pr := a.create_pr, parent_commit := a.parent_commit }

/-! ### `HfApi` (`hf_api.py`): the synchronous adapter

Each method drives the corresponding `AsyncHfApi` coroutine to completion
(`async_to_sync`).  Exceptions propagate unchanged. -/

/-- The constructor of `HfApi` (`hf_api.py`, lines 126-132) stores an `AsyncHfApi`. -/
structure HfApi where
  _async_api : AsyncHfApi
deriving DecidableEq, Repr

/-- The method `HfApi.create_commit` (`hf_api.py`, lines 396-422): forwards every
argument and returns the result of the coroutine. -/
def HfApi.create_commit (api : HfApi) (srv : Server) (a : CommitArgs) :
    Except HfError (Option String) × List NetCall :=
  api._async_api.create_commit srv a

/-- The method `HfApi.upload_file` (`hf_api.py`, lines 424-452): forwards every argument
and returns the result of the coroutine. -/
def HfApi.upload_file (api : HfApi) (srv : Server) (a : UploadFileArgs) :
    Except HfError String × List NetCall :=
  api._async_api.upload_file srv a

/-- The method `HfApi.upload_folder` (`hf_api.py`, lines 454-484): forwards every
argument and returns the result of the coroutine. -/
def HfApi.upload_folder (api : HfApi) (srv : Server) (a : UploadFolderArgs) :
    Except HfError String × List NetCall :=
  api._async_api.upload_folder srv a

/-- The method `HfApi.delete_file` (`hf_api.py`, lines 486-510): drives the coroutine to
completion but has no `return` statement (line 500), so the result of the
coroutine is discarded and the Python method returns `None`; exceptions still
propagate. -/
def HfApi.delete_file (api : HfApi) (srv : Server) (a : DeleteFileArgs) :
    Except HfError (Option String) × List NetCall :=
  match api._async_api.delete_file srv a with
  | (.error e, calls) => (.error e, calls)
  | (.ok _, calls) => (.ok none, calls)

/-! ### Concrete scenarios used by witnesses and counterexamples -/

/-- A client with the default endpoint. -/
def demoApi : AsyncHfApi := {}

/-- A server that accepts every token, classifies every batch successfully
with no modes to hand out (an empty addition batch), accepts every LFS
transfer and answers the commit POST with 200 and no pull request. -/
def serverOk : Server :=
  { storedToken := none, tokenValid := fun _ => true,
    classify := fun _ => .ok [], lfsFail := fun _ => false,
    commitStatus := 200, commitPullRequestUrl := none }

/-- Like `serverOk` but the commit response reports a created pull request. -/
def serverOkPr : Server :=
  { serverOk with commitPullRequestUrl := some "https://huggingface.co/u/r/discussions/1" }

/-- Like `serverOk` but the classifier reports the repository missing. -/
def serverNotFound : Server :=
  { serverOk with classify := fun _ => .repoNotFound "Repository Not Found (404)." }

/-- A single-deletion commit against `u/r` with an explicit token. -/
def argsDel : CommitArgs :=
  { repo_id := "u/r", operations := [.del ⟨"f.txt"⟩], commit_message := "m",
    token := some "hf_abc" }

/-- A commit call requesting a pull request from a non-default revision. -/
def argsPrFeature : CommitArgs :=
  { repo_id := "u/r", operations := [], commit_message := "m",
    token := some "hf_abc", revision := some "feature-x", create_pr := some true }

/-- A plain `delete_file` call. -/
def argsDelFile : DeleteFileArgs :=
  { path_in_repo := "f.txt", repo_id := "u/r", token := some "hf_abc" }

/-- A `delete_file` call requesting a pull request. -/
def argsDelFilePr : DeleteFileArgs :=
  { path_in_repo := "f.txt", repo_id := "u/r", token := some "hf_abc",
    create_pr := some true }

/-- A plain `upload_file` call with in-memory content. -/
def argsUpl : UploadFileArgs :=
  { path_or_fileobj := .buffer [104, 105], path_in_repo := "f.txt",
    repo_id := "u/r", token := some "hf_abc" }

/-! ## Theorems -/

/-- C2: a call with a non-`None` `parent_commit` that does not match the
hex commit-OID shape is rejected with a `ValueError` before any network I/O
(the parent-commit check is the first statement of `create_commit`, so the
call trace is empty); `"nothex"` is rejected while `"a1b2c3d"` and a full
40-hex-character string pass the OID validation. -/
theorem create_commit_parent_commit_validation :
    (∀ (api : AsyncHfApi) (srv : Server) (a : CommitArgs) (p : String),
        a.parent_commit = some p → regexCommitOidFullmatch p = false →
        api.create_commit srv a =
          (.error (.valueError
            "`parent_commit` is not a valid commit OID. It must match the following regex: {REGEX_COMMIT_OID}"),
            [])) ∧
      regexCommitOidFullmatch "nothex" = false ∧
      regexCommitOidFullmatch "a1b2c3d" = true ∧
      regexCommitOidFullmatch "0123456789abcdef0123456789abcdef01234567" = true := by
  refine ⟨?_, by decide, by decide, by decide⟩
  intro api srv a p hp hf
  simp [AsyncHfApi.create_commit, hp, hf]

/-- Witness for C2 at a concrete input: parent commit `"nothex"` on an
otherwise well-formed call is rejected locally with an empty call trace. -/
theorem create_commit_parent_commit_validation_witness :
    demoApi.create_commit serverOk { argsDel with parent_commit := some "nothex" } =
      (.error (.valueError
        "`parent_commit` is not a valid commit OID. It must match the following regex: {REGEX_COMMIT_OID}"),
        []) :=
  create_commit_parent_commit_validation.1 demoApi serverOk
    { argsDel with parent_commit := some "nothex" } "nothex" rfl (by decide)

/-- C1 (counterexample): with a string token, requesting `create_pr=True`
from revision `"feature-x"` does raise the `ValueError`, but only after the
token-validation request has hit the network: the call trace at the moment of
the failure is the `whoami` call, not empty, so the `ValueError` is not
raised before any network call. -/
theorem create_commit_pr_nondefault_counterexample :
    demoApi.create_commit serverOk argsPrFeature =
        (.error (.valueError "Can only create pull requests against {DEFAULT_REVISION}"),
          [NetCall.whoami "hf_abc"]) ∧
      [NetCall.whoami "hf_abc"] ≠ ([] : List NetCall) := by
  exact ⟨rfl, by decide⟩

/-- C1 (amended): on an otherwise valid call whose token passes validation,
requesting `create_pr=True` with a revision that does not (once
percent-encoded) equal the default branch raises a `ValueError` before any
commit-related network call: the whole call trace is the single
token-validation `whoami` request, so no classifier, LFS or commit-endpoint
call is ever made. -/
theorem create_commit_pr_nondefault_revision (api : AsyncHfApi) (srv : Server)
    (a : CommitArgs) (t : String)
    (hpar : a.parent_commit.any (fun p => !regexCommitOidFullmatch p) = false)
    (hmsg : a.commit_message ≠ "")
    (hrt : some (a.repo_type.getD REPO_TYPE_MODEL) ∈ REPO_TYPES)
    (htok : AsyncHfApi.validate_or_retrieve_token srv a.token = (.ok t, [.whoami t]))
    (hpr : a.create_pr = some true)
    (hrev : (a.revision.map urlQuote).getD DEFAULT_REVISION ≠ DEFAULT_REVISION) :
    api.create_commit srv a =
        (.error (.valueError "Can only create pull requests against {DEFAULT_REVISION}"),
          [NetCall.whoami t]) ∧
      ∀ c ∈ (api.create_commit srv a).2, c.isWhoami = true := by
  have h : api.create_commit srv a =
      (.error (.valueError "Can only create pull requests against {DEFAULT_REVISION}"),
        [NetCall.whoami t]) := by
    simp [AsyncHfApi.create_commit, hpar, hmsg, hrt, htok, hpr, hrev]
  refine ⟨h, ?_⟩
  rw [h]
  intro c hc
  simp only [List.mem_singleton] at hc
  subst hc
  rfl

/-- Witness for the amended statement of C1 at a concrete input. -/
theorem create_commit_pr_nondefault_revision_witness :
    demoApi.create_commit serverOk argsPrFeature =
        (.error (.valueError "Can only create pull requests against {DEFAULT_REVISION}"),
          [NetCall.whoami "hf_abc"]) ∧
      ∀ c ∈ (demoApi.create_commit serverOk argsPrFeature).2, c.isWhoami = true :=
  create_commit_pr_nondefault_revision demoApi serverOk argsPrFeature "hf_abc"
    (by decide) (by decide) (by decide) rfl rfl (by decide)

/-- Splitting the operations list the way `create_commit` does: the additions,
the deletions and the foreign elements together account for every element. -/
theorem commitOps_length_split (ops : List CommitOp) :
    (ops.filterMap CommitOp.getAdd).length + (ops.filterMap CommitOp.getDel).length +
      ops.countP (fun o => o.isUnknown) = ops.length := by
  induction ops with
  | nil => rfl
  | cons o rest ih =>
      cases o with
      | add x =>
          have h1 : (CommitOp.add x :: rest).filterMap CommitOp.getAdd =
              x :: rest.filterMap CommitOp.getAdd := rfl
          have h2 : (CommitOp.add x :: rest).filterMap CommitOp.getDel =
              rest.filterMap CommitOp.getDel := rfl
          rw [h1, h2, List.countP_cons]
          simp only [List.length_cons]
          have h3 : (CommitOp.add x).isUnknown = false := rfl
          rw [h3]
          norm_num
          omega
      | del x =>
          have h1 : (CommitOp.del x :: rest).filterMap CommitOp.getAdd =
              rest.filterMap CommitOp.getAdd := rfl
          have h2 : (CommitOp.del x :: rest).filterMap CommitOp.getDel =
              x :: rest.filterMap CommitOp.getDel := rfl
          rw [h1, h2, List.countP_cons]
          simp only [List.length_cons]
          have h3 : (CommitOp.del x).isUnknown = false := rfl
          rw [h3]
          norm_num
          omega
      | unknown n =>
          have h1 : (CommitOp.unknown n :: rest).filterMap CommitOp.getAdd =
              rest.filterMap CommitOp.getAdd := rfl
          have h2 : (CommitOp.unknown n :: rest).filterMap CommitOp.getDel =
              rest.filterMap CommitOp.getDel := rfl
          rw [h1, h2, List.countP_cons]
          simp only [List.length_cons]
          have h3 : (CommitOp.unknown n).isUnknown = true := rfl
          rw [h3]
          norm_num
          omega

/-- C9: on an otherwise valid call, an `operations` element that is neither a
`CommitOperationAdd` nor a `CommitOperationDelete` makes `create_commit`
raise a `ValueError` before the classifier is contacted, any LFS file is
uploaded or any payload is submitted: the call trace at the failure holds
only the token-validation request. -/
theorem create_commit_unknown_operation (api : AsyncHfApi) (srv : Server)
    (a : CommitArgs) (t : String) (op : CommitOp)
    (hpar : a.parent_commit.any (fun p => !regexCommitOidFullmatch p) = false)
    (hmsg : a.commit_message ≠ "")
    (hrt : some (a.repo_type.getD REPO_TYPE_MODEL) ∈ REPO_TYPES)
    (htok : AsyncHfApi.validate_or_retrieve_token srv a.token = (.ok t, [.whoami t]))
    (hpr : ¬(a.create_pr.getD false = true ∧
      (a.revision.map urlQuote).getD DEFAULT_REVISION ≠ DEFAULT_REVISION))
    (hop : op ∈ a.operations) (hunk : op.isUnknown = true) :
    api.create_commit srv a =
        (.error (.valueError
          "Unknown operation, must be one of `CommitOperationAdd` or `CommitOperationDelete`"),
          [NetCall.whoami t]) ∧
      ∀ c ∈ (api.create_commit srv a).2, c.isWhoami = true := by
  have hcount : 0 < a.operations.countP (fun o => o.isUnknown) :=
    List.countP_pos_iff.mpr ⟨op, hop, hunk⟩
  have hlen : (a.operations.filterMap CommitOp.getAdd).length +
      (a.operations.filterMap CommitOp.getDel).length ≠ a.operations.length := by
    have := commitOps_length_split a.operations
    omega
  have h : api.create_commit srv a =
      (.error (.valueError
        "Unknown operation, must be one of `CommitOperationAdd` or `CommitOperationDelete`"),
        [NetCall.whoami t]) := by
    simp [AsyncHfApi.create_commit, hpar, hmsg, hrt, htok, hpr, hlen]
  refine ⟨h, ?_⟩
  rw [h]
  intro c hc
  simp only [List.mem_singleton] at hc
  subst hc
  rfl

/-- Witness for C9 at a concrete input: a one-element operations list holding
a foreign object. -/
theorem create_commit_unknown_operation_witness :
    demoApi.create_commit serverOk { argsDel with operations := [.unknown 0] } =
        (.error (.valueError
          "Unknown operation, must be one of `CommitOperationAdd` or `CommitOperationDelete`"),
          [NetCall.whoami "hf_abc"]) ∧
      ∀ c ∈ (demoApi.create_commit serverOk { argsDel with operations := [.unknown 0] }).2,
        c.isWhoami = true :=
  create_commit_unknown_operation demoApi serverOk
    { argsDel with operations := [.unknown 0] } "hf_abc" (.unknown 0)
    (by decide) (by decide) (by decide) rfl (by decide) (by decide) (by decide)

/-- C5: when the classifier RPC reports the repository missing, the failure
surfaced by `create_commit` is the distinct repository-not-found kind with
the create-repo guidance appended to the server message, and the commit
aborts: the call trace contains no LFS transfer and no commit POST (so no
payload is submitted and no operation ever receives an upload mode). -/
theorem create_commit_repository_not_found (api : AsyncHfApi) (srv : Server)
    (a : CommitArgs) (t m : String)
    (hpar : a.parent_commit.any (fun p => !regexCommitOidFullmatch p) = false)
    (hmsg : a.commit_message ≠ "")
    (hrt : some (a.repo_type.getD REPO_TYPE_MODEL) ∈ REPO_TYPES)
    (htok : AsyncHfApi.validate_or_retrieve_token srv a.token = (.ok t, [.whoami t]))
    (hpr : ¬(a.create_pr.getD false = true ∧
      (a.revision.map urlQuote).getD DEFAULT_REVISION ≠ DEFAULT_REVISION))
    (hops : (a.operations.filterMap CommitOp.getAdd).length +
      (a.operations.filterMap CommitOp.getDel).length = a.operations.length)
    (hval : (a.operations.filterMap CommitOp.getAdd).all additionValid = true)
    (hclass : srv.classify
        ((a.operations.filterMap CommitOp.getAdd).map (fun x => x.path_in_repo)) =
      .repoNotFound m) :
    (api.create_commit srv a).1 = .error (.repositoryNotFound (m ++ createRepoNote)) ∧
      ∀ c ∈ (api.create_commit srv a).2, c.isLfsUpload = false ∧ c.isCommitPost = false := by
  have h : api.create_commit srv a =
      (.error (.repositoryNotFound (m ++ createRepoNote)),
        [NetCall.whoami t,
          NetCall.preupload (a.repo_type.getD REPO_TYPE_MODEL) a.repo_id
            ((a.revision.map urlQuote).getD DEFAULT_REVISION) (a.create_pr.getD false)
            ((a.operations.filterMap CommitOp.getAdd).map (fun x => x.path_in_repo))]) := by
    simp [AsyncHfApi.create_commit, fetch_upload_modes, hpar, hmsg, hrt, htok, hpr,
      hops, hval, hclass]
  rw [h]
  refine ⟨rfl, ?_⟩
  intro c hc
  simp only [List.mem_cons, List.not_mem_nil, or_false] at hc
  rcases hc with rfl | rfl
  · exact ⟨rfl, rfl⟩
  · exact ⟨rfl, rfl⟩

/-- Witness for C5 at a concrete input: a single-deletion commit against a
server whose classifier answers 404. -/
theorem create_commit_repository_not_found_witness :
    (demoApi.create_commit serverNotFound argsDel).1 =
        .error (.repositoryNotFound ("Repository Not Found (404)." ++ createRepoNote)) ∧
      ∀ c ∈ (demoApi.create_commit serverNotFound argsDel).2,
        c.isLfsUpload = false ∧ c.isCommitPost = false :=
  create_commit_repository_not_found demoApi serverNotFound argsDel "hf_abc"
    "Repository Not Found (404)." (by decide) (by decide) (by decide) rfl (by decide)
    (by decide) (by decide) rfl

/-- A successful `upload_lfs_files` run transfers every file in order. -/
theorem upload_lfs_files_ok (srv : Server) (l : List CommitOperationAdd)
    (h : ∀ x ∈ l, srv.lfsFail x.path_in_repo = false) :
    upload_lfs_files srv l = (.ok (), l.map (fun x => .lfsUpload x.path_in_repo)) := by
  induction l with
  | nil => rfl
  | cons x rest ih =>
      have hx := h x (List.mem_cons_self x rest)
      have hrest := ih (fun y hy => h y (List.mem_cons_of_mem x hy))
      simp [upload_lfs_files, hx, hrest]

/-- C4: a successful `create_commit` call returns the `pullRequestUrl` field
of the JSON response of the commit endpoint: the pull-request reference when one
was created, `None` otherwise (a direct commit). -/
theorem create_commit_returns_pull_request_url (api : AsyncHfApi) (srv : Server)
    (a : CommitArgs) (t : String) (modes : List UploadMode)
    (hpar : a.parent_commit.any (fun p => !regexCommitOidFullmatch p) = false)
    (hmsg : a.commit_message ≠ "")
    (hrt : some (a.repo_type.getD REPO_TYPE_MODEL) ∈ REPO_TYPES)
    (htok : AsyncHfApi.validate_or_retrieve_token srv a.token = (.ok t, [.whoami t]))
    (hpr : ¬(a.create_pr.getD false = true ∧
      (a.revision.map urlQuote).getD DEFAULT_REVISION ≠ DEFAULT_REVISION))
    (hops : (a.operations.filterMap CommitOp.getAdd).length +
      (a.operations.filterMap CommitOp.getDel).length = a.operations.length)
    (hval : (a.operations.filterMap CommitOp.getAdd).all additionValid = true)
    (hclass : srv.classify
        ((a.operations.filterMap CommitOp.getAdd).map (fun x => x.path_in_repo)) =
      .ok modes)
    (hlfs : ∀ q ∈ ((a.operations.filterMap CommitOp.getAdd).zip modes).filter
        (fun p => p.2 = UploadMode.lfs), srv.lfsFail q.1.path_in_repo = false)
    (hstatus : 200 ≤ srv.commitStatus ∧ srv.commitStatus < 300) :
    (api.create_commit srv a).1 = .ok srv.commitPullRequestUrl := by
  have hupload : upload_lfs_files srv
      ((((a.operations.filterMap CommitOp.getAdd).zip modes).filter
        (fun p => p.2 = UploadMode.lfs)).map (fun p => p.1)) =
      (.ok (), ((((a.operations.filterMap CommitOp.getAdd).zip modes).filter
        (fun p => p.2 = UploadMode.lfs)).map (fun p => p.1)).map
          (fun x => .lfsUpload x.path_in_repo)) := by
    refine upload_lfs_files_ok srv _ ?_
    intro x hx
    obtain ⟨q, hq, rfl⟩ := List.mem_map.mp hx
    exact hlfs q hq
  simp [AsyncHfApi.create_commit, fetch_upload_modes, hpar, hmsg, hrt, htok, hpr,
    hops, hval, hclass, hupload, hstatus]

/-- Witness for C4 at a concrete input: a single-deletion commit whose
response carries a pull-request URL. -/
theorem create_commit_returns_pull_request_url_witness :
    (demoApi.create_commit serverOkPr
        { argsDel with create_pr := some true }).1 =
      .ok (some "https://huggingface.co/u/r/discussions/1") :=
  create_commit_returns_pull_request_url demoApi serverOkPr
    { argsDel with create_pr := some true } "hf_abc" [] (by decide) (by decide)
    (by decide) rfl (by decide) (by decide) (by decide) rfl (by decide) (by decide)

/-- C3 (amended): the commit payload is the record sequence the spec
describes — the header record first, every later record keyed `file`,
`lfsFile` or `deletedFile` — but the request body POSTed to the commit
endpoint is the standard JSON serialization of that record list (one JSON
array), not a newline-delimited sequence: on a successful call the single
posted body is `encodeBodyJsonArray` of the payload. -/
theorem commit_payload_structure :
    (∀ (additions : List (CommitOperationAdd × UploadMode))
        (deletions : List CommitOperationDelete) (m d : String) (par : Option String),
        (prepare_commit_payload additions deletions m d par).head?.map CommitRecord.key =
            some "header" ∧
          ∀ r ∈ (prepare_commit_payload additions deletions m d par).tail,
            r.key = "file" ∨ r.key = "lfsFile" ∨ r.key = "deletedFile") ∧
      ∀ (api : AsyncHfApi) (srv : Server) (a : CommitArgs) (t : String)
        (modes : List UploadMode),
        a.parent_commit.any (fun p => !regexCommitOidFullmatch p) = false →
        a.commit_message ≠ "" →
        some (a.repo_type.getD REPO_TYPE_MODEL) ∈ REPO_TYPES →
        AsyncHfApi.validate_or_retrieve_token srv a.token = (.ok t, [.whoami t]) →
        ¬(a.create_pr.getD false = true ∧
          (a.revision.map urlQuote).getD DEFAULT_REVISION ≠ DEFAULT_REVISION) →
        (a.operations.filterMap CommitOp.getAdd).length +
          (a.operations.filterMap CommitOp.getDel).length = a.operations.length →
        (a.operations.filterMap CommitOp.getAdd).all additionValid = true →
        srv.classify
            ((a.operations.filterMap CommitOp.getAdd).map (fun x => x.path_in_repo)) =
          .ok modes →
        (∀ q ∈ ((a.operations.filterMap CommitOp.getAdd).zip modes).filter
          (fun p => p.2 = UploadMode.lfs), srv.lfsFail q.1.path_in_repo = false) →
        postedBodies (api.create_commit srv a).2 =
          [encodeBodyJsonArray (prepare_commit_payload
            ((a.operations.filterMap CommitOp.getAdd).zip modes)
            (a.operations.filterMap CommitOp.getDel) a.commit_message
            (a.commit_description.getD "") a.parent_commit)] := by
  constructor
  · intro additions deletions m d par
    constructor
    · rfl
    · intro r hr
      have hr' : r ∈ additions.map additionRecord ++ deletions.map deletionRecord := hr
      rcases List.mem_append.mp hr' with hmem | hmem
      · obtain ⟨q, _, rfl⟩ := List.mem_map.mp hmem
        rcases q with ⟨x, mo⟩
        cases mo
        · exact Or.inl rfl
        · exact Or.inr (Or.inl rfl)
      · obtain ⟨q, _, rfl⟩ := List.mem_map.mp hmem
        exact Or.inr (Or.inr rfl)
  · intro api srv a t modes hpar hmsg hrt htok hpr hops hval hclass hlfs
    have hupload : upload_lfs_files srv
        ((((a.operations.filterMap CommitOp.getAdd).zip modes).filter
          (fun p => p.2 = UploadMode.lfs)).map (fun p => p.1)) =
        (.ok (), ((((a.operations.filterMap CommitOp.getAdd).zip modes).filter
          (fun p => p.2 = UploadMode.lfs)).map (fun p => p.1)).map
            (fun x => .lfsUpload x.path_in_repo)) := by
      refine upload_lfs_files_ok srv _ ?_
      intro x hx
      obtain ⟨q, hq, rfl⟩ := List.mem_map.mp hx
      exact hlfs q hq
    by_cases hstatus : 200 ≤ srv.commitStatus ∧ srv.commitStatus < 300
    · simp [AsyncHfApi.create_commit, fetch_upload_modes, hpar, hmsg, hrt, htok, hpr,
        hops, hval, hclass, hupload, hstatus, postedBodies, List.filterMap_append]
    · by_cases h404 : srv.commitStatus = 404
      · simp [AsyncHfApi.create_commit, fetch_upload_modes, hpar, hmsg, hrt, htok, hpr,
          hops, hval, hclass, hupload, hstatus, h404, postedBodies, List.filterMap_append]
      · simp [AsyncHfApi.create_commit, fetch_upload_modes, hpar, hmsg, hrt, htok, hpr,
          hops, hval, hclass, hupload, hstatus, h404, postedBodies, List.filterMap_append]

/-- Witness for the amended statement of C3 at a concrete input. -/
theorem commit_payload_structure_witness :
    postedBodies (demoApi.create_commit serverOk argsDel).2 =
      [encodeBodyJsonArray (prepare_commit_payload
        ((argsDel.operations.filterMap CommitOp.getAdd).zip [])
        (argsDel.operations.filterMap CommitOp.getDel) argsDel.commit_message
        (argsDel.commit_description.getD "") argsDel.parent_commit)] :=
  commit_payload_structure.2 demoApi serverOk argsDel "hf_abc" [] (by decide)
    (by decide) (by decide) rfl (by decide) (by decide) (by decide) rfl (by decide)

/-- C3 (counterexample): on a concrete successful single-deletion commit the
posted body is the JSON array serialization of the two payload records; it
differs from the newline-delimited serialization of those same records and
contains no newline at all, so the request body is not a sequence of
newline-delimited JSON records. -/
theorem commit_body_not_ndjson_counterexample :
    postedBodies (demoApi.create_commit serverOk argsDel).2 =
        [encodeBodyJsonArray (prepare_commit_payload [] [⟨"f.txt"⟩] "m" "" none)] ∧
      (prepare_commit_payload [] [⟨"f.txt"⟩] "m" "" none).length = 2 ∧
      encodeBodyJsonArray (prepare_commit_payload [] [⟨"f.txt"⟩] "m" "" none) ≠
        encodeBodyNdjson (prepare_commit_payload [] [⟨"f.txt"⟩] "m" "" none) ∧
      (encodeBodyJsonArray (prepare_commit_payload [] [⟨"f.txt"⟩] "m" "" none)).data.all
        (fun c => !(c == Char.ofNat 10)) = true := by
  refine ⟨rfl, rfl, by decide, by decide⟩

/-- C8 (amended): every synchronous commit-pipeline method of `HfApi` drives
the corresponding `AsyncHfApi` coroutine with the same arguments and
propagates the same failures; `create_commit`, `upload_file` and
`upload_folder` also return the value of the coroutine unchanged, while
`delete_file` discards the return value of the coroutine and returns `None`. -/
theorem sync_api_is_async_adapter :
    (∀ (h : HfApi) (srv : Server) (a : CommitArgs),
        h.create_commit srv a = h._async_api.create_commit srv a) ∧
      (∀ (h : HfApi) (srv : Server) (a : UploadFileArgs),
        h.upload_file srv a = h._async_api.upload_file srv a) ∧
      (∀ (h : HfApi) (srv : Server) (a : UploadFolderArgs),
        h.upload_folder srv a = h._async_api.upload_folder srv a) ∧
      (∀ (h : HfApi) (srv : Server) (a : DeleteFileArgs),
        h.delete_file srv a =
          ((h._async_api.delete_file srv a).1.map (fun _ => (none : Option String)),
            (h._async_api.delete_file srv a).2)) := by
  refine ⟨fun _ _ _ => rfl, fun _ _ _ => rfl, fun _ _ _ => rfl, ?_⟩
  intro h srv a
  unfold HfApi.delete_file
  rcases hres : h._async_api.delete_file srv a with ⟨r, calls⟩
  cases r <;> rfl

/-- C8 (counterexample): when a `delete_file` call creates a pull request, the
coroutine returns the pull-request URL but the synchronous wrapper (which has
no `return` statement) returns `None`: the two entry points return different
values for the same input. -/
theorem sync_delete_file_drops_result_counterexample :
    (AsyncHfApi.delete_file demoApi serverOkPr argsDelFilePr).1 =
        .ok (some "https://huggingface.co/u/r/discussions/1") ∧
      (HfApi.delete_file ⟨demoApi⟩ serverOkPr argsDelFilePr).1 = .ok none ∧
      (Except.ok (some "https://huggingface.co/u/r/discussions/1") :
          Except HfError (Option String)) ≠ .ok none := by
  refine ⟨rfl, rfl, ?_⟩
  intro hcon
  exact Option.noConfusion (Except.ok.inj hcon)

/-- C6 (amended): on a successful call `upload_file` returns the display URL
`{endpoint}/{repo_id}/blob/{revision}/{path_in_repo}` (with the dataset/space
URL prefix on the repo id when applicable, and with the percent-encoded
revision parsed from the pull-request URL substituted when a pull request was
created); `delete_file`, however, returns the result of `create_commit` (the
pull-request URL or `None`), not a display URL. -/
theorem upload_file_url_delete_file_result :
    (∀ (api : AsyncHfApi) (srv : Server) (a : UploadFileArgs),
        REPO_TYPES.contains a.repo_type = true →
        (api.create_commit srv
            { repo_id := a.repo_id,
              operations := [CommitOp.add { path_or_fileobj := a.path_or_fileobj, path_in_repo := a.path_in_repo }],
              commit_message :=
                a.commit_message.getD ("Upload " ++ a.path_in_repo ++ " with huggingface_hub"),
              commit_description := a.commit_description, token := a.token,
              repo_type := a.repo_type, revision := a.revision,
              create_pr := a.create_pr, parent_commit := a.parent_commit }).1 =
          .ok none →
        api.upload_file srv a =
          (.ok (api.endpoint ++ "/" ++
              (match urlPrefixFor a.repo_type with
               | some pre => pre ++ a.repo_id
               | none => a.repo_id) ++
              "/blob/" ++ a.revision.getD DEFAULT_REVISION ++ "/" ++ a.path_in_repo),
            (api.create_commit srv
              { repo_id := a.repo_id,
                operations := [CommitOp.add { path_or_fileobj := a.path_or_fileobj, path_in_repo := a.path_in_repo }],
                commit_message :=
                  a.commit_message.getD ("Upload " ++ a.path_in_repo ++ " with huggingface_hub"),
                commit_description := a.commit_description, token := a.token,
                repo_type := a.repo_type, revision := a.revision,
                create_pr := a.create_pr, parent_commit := a.parent_commit }).2)) ∧
      (∀ (api : AsyncHfApi) (srv : Server) (a : UploadFileArgs) (u rev : String),
        REPO_TYPES.contains a.repo_type = true →
        (api.create_commit srv
            { repo_id := a.repo_id,
              operations := [CommitOp.add { path_or_fileobj := a.path_or_fileobj, path_in_repo := a.path_in_repo }],
              commit_message :=
                a.commit_message.getD ("Upload " ++ a.path_in_repo ++ " with huggingface_hub"),
              commit_description := a.commit_description, token := a.token,
              repo_type := a.repo_type, revision := a.revision,
              create_pr := a.create_pr, parent_commit := a.parent_commit }).1 =
          .ok (some u) →
        _parse_revision_from_pr_url u = .ok rev →
        api.upload_file srv a =
          (.ok (api.endpoint ++ "/" ++
              (match urlPrefixFor a.repo_type with
               | some pre => pre ++ a.repo_id
               | none => a.repo_id) ++
              "/blob/" ++ urlQuote rev ++ "/" ++ a.path_in_repo),
            (api.create_commit srv
              { repo_id := a.repo_id,
                operations := [CommitOp.add { path_or_fileobj := a.path_or_fileobj, path_in_repo := a.path_in_repo }],
                commit_message :=
                  a.commit_message.getD ("Upload " ++ a.path_in_repo ++ " with huggingface_hub"),
                commit_description := a.commit_description, token := a.token,
                repo_type := a.repo_type, revision := a.revision,
                create_pr := a.create_pr, parent_commit := a.parent_commit }).2)) ∧
      ∀ (api : AsyncHfApi) (srv : Server) (a : DeleteFileArgs),
        api.delete_file srv a =
          api.create_commit srv
            { repo_id := a.repo_id, operations := [.del ⟨a.path_in_repo⟩],
              commit_message :=
                a.commit_message.getD ("Delete " ++ a.path_in_repo ++ " with huggingface_hub"),
              commit_description := a.commit_description, token := a.token,
              repo_type := a.repo_type, revision := a.revision,
              create_pr := a.create_pr, parent_commit := a.parent_commit } := by
  refine ⟨?_, ?_, fun _ _ _ => rfl⟩
  · intro api srv a hrt hcc
    rcases hres : api.create_commit srv
        { repo_id := a.repo_id,
          operations := [CommitOp.add { path_or_fileobj := a.path_or_fileobj, path_in_repo := a.path_in_repo }],
          commit_message :=
            a.commit_message.getD ("Upload " ++ a.path_in_repo ++ " with huggingface_hub"),
          commit_description := a.commit_description, token := a.token,
          repo_type := a.repo_type, revision := a.revision,
          create_pr := a.create_pr, parent_commit := a.parent_commit } with ⟨r, calls⟩
    rw [hres] at hcc
    simp only at hcc
    subst hcc
    have hmem : a.repo_type ∈ REPO_TYPES := List.mem_of_elem_eq_true hrt
    simp [AsyncHfApi.upload_file, hmem, hres]
  · intro api srv a u rev hrt hcc hparse
    rcases hres : api.create_commit srv
        { repo_id := a.repo_id,
          operations := [CommitOp.add { path_or_fileobj := a.path_or_fileobj, path_in_repo := a.path_in_repo }],
          commit_message :=
            a.commit_message.getD ("Upload " ++ a.path_in_repo ++ " with huggingface_hub"),
          commit_description := a.commit_description, token := a.token,
          repo_type := a.repo_type, revision := a.revision,
          create_pr := a.create_pr, parent_commit := a.parent_commit } with ⟨r, calls⟩
    rw [hres] at hcc
    simp only at hcc
    subst hcc
    have hmem : a.repo_type ∈ REPO_TYPES := List.mem_of_elem_eq_true hrt
    simp [AsyncHfApi.upload_file, hmem, hres, hparse]

/-- Witness for the amended statement of C6 at a concrete input: a direct-commit
`upload_file` call yields the blob display URL. -/
theorem upload_file_url_delete_file_result_witness :
    demoApi.upload_file serverOk argsUpl =
      (.ok (demoApi.endpoint ++ "/" ++
          (match urlPrefixFor argsUpl.repo_type with
           | some pre => pre ++ argsUpl.repo_id
           | none => argsUpl.repo_id) ++
          "/blob/" ++ argsUpl.revision.getD DEFAULT_REVISION ++ "/" ++ argsUpl.path_in_repo),
        (demoApi.create_commit serverOk
          { repo_id := argsUpl.repo_id,
            operations := [CommitOp.add { path_or_fileobj := argsUpl.path_or_fileobj, path_in_repo := argsUpl.path_in_repo }],
            commit_message :=
              argsUpl.commit_message.getD
                ("Upload " ++ argsUpl.path_in_repo ++ " with huggingface_hub"),
            commit_description := argsUpl.commit_description, token := argsUpl.token,
            repo_type := argsUpl.repo_type, revision := argsUpl.revision,
            create_pr := argsUpl.create_pr, parent_commit := argsUpl.parent_commit }).2) :=
  upload_file_url_delete_file_result.1 demoApi serverOk argsUpl (by rfl) (by rfl)

/-- C6 (counterexample): a concrete successful `delete_file` call returns
`None` — not a display URL of the form
`{endpoint}/{repo_id}/blob/{revision}/{path_in_repo}`. -/
theorem delete_file_no_display_url_counterexample :
    (demoApi.delete_file serverOk argsDelFile).1 = .ok none ∧
      (Except.ok (none : Option String) : Except HfError (Option String)) ≠
        .ok (some ("https://huggingface.co" ++ "/u/r" ++ "/blob/" ++ "main" ++ "/f.txt")) := by
  refine ⟨rfl, ?_⟩
  intro hcon
  exact Option.noConfusion (Except.ok.inj hcon)

/-- The filter `filter_repo_objects` keeps exactly the items whose key passes
`keepByPatterns`: the allow filter first, the ignore filter after, both
looking only at the key. -/
theorem filter_repo_objects_eq_filter_keep (items : List CommitOperationAdd)
    (allow_patterns ignore_patterns : Option (List String))
    (key : CommitOperationAdd → String) :
    filter_repo_objects items allow_patterns ignore_patterns key =
      items.filter (fun it => keepByPatterns allow_patterns ignore_patterns (key it)) := by
  unfold filter_repo_objects keepByPatterns
  congr 1
  funext it
  cases allow_patterns <;> cases ignore_patterns <;> simp

/-- C7: the folder walker maps every regular file under the root to an `Add`
operation whose `path_in_repo` is the normalized join of the destination
prefix and the relative path of the file, and then applies the `allow_patterns` /
`ignore_patterns` glob filters to that final `path_in_repo` string (not to
the local filesystem path); in particular, `allow_patterns=["*.bin"]` over a
directory holding exactly `a.bin` and `a.txt` yields exactly one `Add`
operation, for `a.bin`. -/
theorem upload_folder_filters_on_path_in_repo :
    (∀ (folder_path : String) (entries : List FileEntry) (path_in_repo : String)
        (allow_patterns ignore_patterns : Option (List String)),
        _prepare_upload_folder_commit folder_path (some entries) path_in_repo
            allow_patterns ignore_patterns =
          .ok ((entries.map fun e =>
              { path_or_fileobj :=
                  PathOrFileobj.filePath (posixJoin (posixNormpath folder_path) e.relPath)
                    e.content,
                path_in_repo := posixNormpath (posixJoin path_in_repo e.relPath) :
                CommitOperationAdd }).filter
            (fun op => keepByPatterns allow_patterns ignore_patterns op.path_in_repo))) ∧
      _prepare_upload_folder_commit "local" (some [⟨"a.bin", [0, 1]⟩, ⟨"a.txt", [2]⟩]) ""
          (some ["*.bin"]) none =
        .ok [{ path_or_fileobj := PathOrFileobj.filePath "local/a.bin" [0, 1], path_in_repo := "a.bin" }] := by
  constructor
  · intro folder_path entries path_in_repo allow_patterns ignore_patterns
    unfold _prepare_upload_folder_commit
    simp only []
    rw [filter_repo_objects_eq_filter_keep]
  · rfl

/-- Soundness of the pattern tail: a successful capture decomposes the input
as the literal, the captured digits and a `$`-compatible tail. -/
theorem discussionsSuffixCapture_sound (t d : List Char)
    (h : discussionsSuffixCapture t = some d) :
    ∃ tail, t = discussionsLit ++ (d ++ tail) ∧ d ≠ [] ∧
      (∀ c ∈ d, c.isDigit = true) ∧ (tail = [] ∨ tail = [Char.ofNat 10]) := by
  unfold discussionsSuffixCapture at h
  cases hp : discussionsLit.isPrefixOf t with
  | false => rw [hp] at h; simp at h
  | true =>
      rw [hp] at h
      simp only [if_true] at h
      obtain ⟨rest', rfl⟩ := List.isPrefixOf_iff_prefix.mp hp
      rw [List.drop_left] at h
      split at h
      · next hcond =>
          obtain ⟨hne, htail⟩ := hcond
          injection h with h
          refine ⟨rest'.dropWhile Char.isDigit, ?_, ?_, ?_, htail⟩
          · rw [← h, List.takeWhile_append_dropWhile]
          · rw [← h]; exact hne
          · intro c hc
            rw [← h] at hc
            exact List.mem_takeWhile_imp hc
      · simp at h

/-- Completeness of the pattern tail: the literal followed by a non-empty
digit run (and nothing else) is captured whole. -/
theorem discussionsSuffixCapture_complete (d : List Char) (hne : d ≠ [])
    (hd : ∀ c ∈ d, c.isDigit = true) :
    discussionsSuffixCapture (discussionsLit ++ d) = some d := by
  unfold discussionsSuffixCapture
  have hp : discussionsLit.isPrefixOf (discussionsLit ++ d) = true :=
    List.isPrefixOf_iff_prefix.mpr (List.prefix_append _ _)
  rw [hp]
  simp only [if_true, List.drop_left]
  rw [List.takeWhile_eq_self_iff.mpr hd, List.dropWhile_eq_nil_iff.mpr hd]
  rw [if_pos ⟨hne, Or.inl rfl⟩]

/-- Soundness of the whole regex match: a capture yields a decomposition of
the input into an arbitrary prefix (matched by the greedy `.*`), the literal,
the captured non-empty digit run, and a `$`-compatible tail (empty, or a
single final newline). -/
theorem regexDiscussionMatch_sound (s : List Char) (d : List Char)
    (h : regexDiscussionMatch s = some d) :
    ∃ a tail, s = a ++ discussionsLit ++ d ++ tail ∧ d ≠ [] ∧
      (∀ c ∈ d, c.isDigit = true) ∧ (tail = [] ∨ tail = [Char.ofNat 10]) := by
  induction s with
  | nil =>
      obtain ⟨tail, heq, hne, hd, ht⟩ := discussionsSuffixCapture_sound _ _ h
      exact ⟨[], tail, by simpa [List.append_assoc] using heq, hne, hd, ht⟩
  | cons c rest ih =>
      rw [regexDiscussionMatch] at h
      by_cases hc : c = Char.ofNat 10
      · rw [if_pos hc] at h
        obtain ⟨tail, heq, hne, hd, ht⟩ := discussionsSuffixCapture_sound _ _ h
        exact ⟨[], tail, by simpa [List.append_assoc] using heq, hne, hd, ht⟩
      · rw [if_neg hc] at h
        cases hrec : regexDiscussionMatch rest with
        | some d' =>
            rw [hrec] at h
            simp only at h
            injection h with h
            subst h
            obtain ⟨a, tail, heq, hne, hd, ht⟩ := ih hrec
            refine ⟨c :: a, tail, ?_, hne, hd, ht⟩
            rw [heq]
            simp [List.append_assoc]
          | none =>
            rw [hrec] at h
            simp only at h
            obtain ⟨tail, heq, hne, hd, ht⟩ := discussionsSuffixCapture_sound _ _ h
            exact ⟨[], tail, by simpa [List.append_assoc] using heq, hne, hd, ht⟩

/-- Completeness of the whole regex match on newline-free prefixes: an input
of the shape `a ++ "/discussions/" ++ digits` with no newline in `a` is
matched. -/
theorem regexDiscussionMatch_complete (a d : List Char)
    (hnl : Char.ofNat 10 ∉ a) (hne : d ≠ []) (hd : ∀ c ∈ d, c.isDigit = true) :
    (regexDiscussionMatch (a ++ discussionsLit ++ d)).isSome = true := by
  induction a with
  | nil =>
      simp only [List.nil_append]
      have hL : discussionsLit ++ d = Char.ofNat 47 :: ("discussions/".data ++ d) := rfl
      rw [hL, regexDiscussionMatch, if_neg (by decide)]
      cases hrec : regexDiscussionMatch ("discussions/".data ++ d) with
      | some d' => rfl
      | none =>
          have hcap : discussionsSuffixCapture (discussionsLit ++ d) = some d :=
            discussionsSuffixCapture_complete d hne hd
          rw [hL] at hcap
          show (discussionsSuffixCapture
            (Char.ofNat 47 :: ("discussions/".data ++ d))).isSome = true
          rw [hcap]
          rfl
  | cons c a ih =>
      have hc : c ≠ Char.ofNat 10 := fun hcon => hnl (hcon ▸ List.mem_cons_self c a)
      have hnl' : Char.ofNat 10 ∉ a := fun hmem => hnl (List.mem_cons_of_mem c hmem)
      simp only [List.cons_append]
      rw [regexDiscussionMatch, if_neg hc]
      have := ih hnl'
      cases hrec : regexDiscussionMatch (a ++ discussionsLit ++ d) with
      | some d' => rfl
      | none =>
          exfalso
          rw [hrec] at this
          simp at this

/-- Two suffix decompositions of `"/discussions/" ++ digits` agree on the
digit run: the literal cannot reoccur inside the digits. -/
theorem digits_suffix_unique (d d' u : List Char)
    (hu : u ++ (discussionsLit ++ d') = discussionsLit ++ d)
    (hd : ∀ c ∈ d, c.isDigit = true) : d' = d := by
  cases u with
  | nil =>
      have hu' : discussionsLit ++ d' = discussionsLit ++ d := by simpa using hu
      exact List.append_cancel_left hu'
  | cons c u' =>
      exfalso
      have hlen := congrArg List.length hu
      simp only [List.length_append, List.length_cons] at hlen
      have hL13 : discussionsLit.length = 13 := rfl
      rw [hL13] at hlen
      have hlhs : ((c :: u') ++ (discussionsLit ++ d'))[u'.length + 13]? =
          some (Char.ofNat 47) := by
        rw [List.getElem?_append_right
          (show (c :: u').length ≤ u'.length + 13 by
            simp only [List.length_cons]; omega)]
        have h12 : u'.length + 13 - (c :: u').length = 12 := by
          simp only [List.length_cons]; omega
        rw [h12]
        rw [List.getElem?_append_left
          (show (12 : Nat) < discussionsLit.length by rw [hL13]; omega)]
        rfl
      have hrhs : (discussionsLit ++ d)[u'.length + 13]? = d[u'.length]? := by
        rw [List.getElem?_append_right
          (show discussionsLit.length ≤ u'.length + 13 by rw [hL13]; omega)]
        have hidx2 : u'.length + 13 - discussionsLit.length = u'.length := by
          rw [hL13]
          omega
        rw [hidx2]
      have hmain := congrArg (fun l => l[u'.length + 13]?) hu
      simp only at hmain
      rw [hlhs, hrhs] at hmain
      have hmem : Char.ofNat 47 ∈ d := List.getElem?_mem hmain.symm
      have := hd _ hmem
      simp at this

/-- In a newline-free string, the decomposition into a prefix, the
`"/discussions/"` literal and a digit suffix is unique. -/
theorem newline_free_decomposition_unique (a d a' d' tail' : List Char)
    (hnlS : Char.ofNat 10 ∉ a ++ discussionsLit ++ d)
    (heq : a ++ discussionsLit ++ d = a' ++ discussionsLit ++ d' ++ tail')
    (hd : ∀ c ∈ d, c.isDigit = true) (hd' : ∀ c ∈ d', c.isDigit = true)
    (ht' : tail' = [] ∨ tail' = [Char.ofNat 10]) : d' = d := by
  have ht0 : tail' = [] := by
    rcases ht' with h | h
    · exact h
    · exfalso
      apply hnlS
      rw [heq, h]
      simp
  subst ht0
  rw [List.append_nil] at heq
  have hs1 : (discussionsLit ++ d) <:+ (a ++ discussionsLit ++ d) :=
    ⟨a, (List.append_assoc a discussionsLit d).symm⟩
  have hs2 : (discussionsLit ++ d') <:+ (a ++ discussionsLit ++ d) := by
    rw [heq]
    exact ⟨a', (List.append_assoc a' discussionsLit d').symm⟩
  rcases List.suffix_or_suffix_of_suffix hs2 hs1 with h | h
  · obtain ⟨u, hu⟩ := h
    exact digits_suffix_unique d d' u hu hd
  · obtain ⟨u, hu⟩ := h
    exact (digits_suffix_unique d' d u hu hd').symm

/-- C10 (amended): restricted to newline-free strings, the claim holds: a
string of the shape `a ++ "/discussions/" ++ <digits>` parses to exactly
`refs/pr/<digits>`, and every newline-free string not of that shape raises
the `RuntimeError`.  (Strings containing newlines escape both directions, as
the counterexample shows, because the Python `.*` does not match a newline and
`$` also matches just before a final newline.) -/
theorem parse_revision_from_pr_url_spec :
    (∀ (a d : List Char), Char.ofNat 10 ∉ a → d ≠ [] → (∀ c ∈ d, c.isDigit = true) →
        _parse_revision_from_pr_url (String.mk (a ++ discussionsLit ++ d)) =
          .ok ("refs/pr/" ++ String.mk d)) ∧
      ∀ s : String, Char.ofNat 10 ∉ s.data →
        (¬ ∃ a d, s.data = a ++ discussionsLit ++ d ∧ d ≠ [] ∧ ∀ c ∈ d, c.isDigit = true) →
        _parse_revision_from_pr_url s =
          .error (.runtimeError
            ("Unexpected response from the hub, expected a Pull Request URL but got: " ++ s)) := by
  constructor
  · intro a d hnl hne hd
    have hnlS : Char.ofNat 10 ∉ a ++ discussionsLit ++ d := by
      intro hmem
      rcases List.mem_append.mp hmem with h | h
      · rcases List.mem_append.mp h with h1 | h1
        · exact hnl h1
        · exact absurd h1 (by decide)
      · have := hd _ h
        simp at this
    have hsome := regexDiscussionMatch_complete a d hnl hne hd
    obtain ⟨d'', hm⟩ := Option.isSome_iff_exists.mp hsome
    obtain ⟨a'', tail'', heq, hne'', hd'', ht''⟩ := regexDiscussionMatch_sound _ _ hm
    have hdd : d'' = d :=
      newline_free_decomposition_unique a d a'' d'' tail'' hnlS heq hd hd'' ht''
    subst hdd
    unfold _parse_revision_from_pr_url
    have hdata : (String.mk (a ++ discussionsLit ++ d'')).data =
        a ++ discussionsLit ++ d'' := rfl
    rw [hdata, hm]
  · intro s hnl hshape
    unfold _parse_revision_from_pr_url
    cases hm : regexDiscussionMatch s.data with
    | none => rfl
    | some d =>
        exfalso
        obtain ⟨a, tail, heq, hne, hd, ht⟩ := regexDiscussionMatch_sound _ _ hm
        have ht0 : tail = [] := by
          rcases ht with h | h
          · exact h
          · exfalso
            apply hnl
            rw [heq, h]
            simp
        apply hshape
        refine ⟨a, d, ?_, hne, hd⟩
        rw [heq, ht0, List.append_nil]

/-- Witness for the amended statement of C10 at a concrete input. -/
theorem parse_revision_from_pr_url_spec_witness :
    _parse_revision_from_pr_url
        (String.mk ("https://huggingface.co/u/r".data ++ discussionsLit ++ "2".data)) =
      .ok ("refs/pr/" ++ String.mk "2".data) :=
  parse_revision_from_pr_url_spec.1 "https://huggingface.co/u/r".data "2".data
    (by decide) (by decide) (by decide)

/-- C10 (counterexample): `"a\nb/discussions/3"` ends in `/discussions/3`
(with `3` a non-empty digit sequence), yet `_parse_revision_from_pr_url`
raises the `RuntimeError` instead of returning `refs/pr/3`, because the
greedy `.*` of the pattern cannot cross the embedded newline. -/
theorem parse_revision_newline_counterexample :
    "a\nb/discussions/3".data = "a\nb".data ++ discussionsLit ++ "3".data ∧
      "3".data ≠ [] ∧ (∀ c ∈ "3".data, c.isDigit = true) ∧
      _parse_revision_from_pr_url "a\nb/discussions/3" =
        .error (.runtimeError
          "Unexpected response from the hub, expected a Pull Request URL but got: a\nb/discussions/3") := by
  refine ⟨by decide, by decide, by decide, rfl⟩

end HuggingfaceHub
